import Mathlib

/-!
A shallow embedding of the incremental discovery-and-sync engine of the
security-rules-collector repository.

Paths and strings are modelled as lists of characters so that the index
arithmetic of the Python code (slicing, `str.find`) is explicit.  Effectful
collaborators (glob matching, `os.path.exists`, `os.walk`, the docker CLI,
file contents) are passed in as explicit function-valued parameters or
environment records; everything the engine itself computes is translated
from the source functions it is named after:

* `search_device_paths`       — `core/collector.py`, `_search_device_paths`
* `deduplicate_targets`       — `core/collector.py`, `_deduplicate_targets`
* `decide_scan_strategy`      — `core/collector.py`, `_decide_scan_strategy`
* `process_local_device`      — `core/collector.py`, `_process_local_device`
* `process_cached_paths`      — `core/collector.py`, `_process_cached_paths`
* `scan_rule_files`           — `core/collector.py`, `_scan_rule_files`
* `verify_cached_paths`       — `core/cache_manager.py`
* `save_hash_record`          — `core/cache_manager.py`
* `process_found_items`       — `core/file_operations.py`
* `calculate_file_hashes`     — `core/file_operations.py`
* `copy_changed_files`        — `core/file_operations.py`
* `enumerate_directory_files` — `utils/file_utils.py`
* `safe_copy`                 — `utils/file_utils.py`
* `collect_from_docker_container` — `core/docker_operations.py`
-/

namespace SecRules

/-- Paths and strings, modelled as lists of characters. -/
abbrev Path := List Char

/-- The platform path separator, `os.sep`; the tool targets POSIX hosts
(all configured search roots and container paths are absolute POSIX paths). -/
def OS_SEP : Char := '/'

/-- `str.lower` (ASCII view; the paths involved are ASCII). -/
def lowerStr (s : Path) : Path := s.map Char.toLower

/-- `s.replace(sep, "/")` where the needle is a single separator character. -/
def normalizeSep (sep : Char) (s : Path) : Path :=
  s.map fun c => if c = sep then '/' else c

/-- `os.path.basename`: everything after the last separator. -/
def baseName (s : Path) : Path :=
  (s.reverse.takeWhile (fun c => decide (c ≠ OS_SEP))).reverse

/-- `os.path.join` on POSIX: an absolute second component discards the first. -/
def joinPath (a b : Path) : Path :=
  if b.head? = some '/' then b
  else if a.isEmpty then b
  else if a.getLast? = some '/' then a ++ b
  else a ++ '/' :: b

/-- `str.find`: the index of the first occurrence of `pat` in `s`,
`none` when there is no occurrence (Python returns `-1`). -/
def findSub : Path → Path → Option Nat
  | [], pat => if pat.isPrefixOf ([] : Path) then some 0 else none
  | c :: t, pat =>
    if pat.isPrefixOf (c :: t) then some 0
    else (findSub t pat).map (· + 1)

/-- `s.lower().endswith("." + ext.lower())`, the extension test used verbatim at
three call sites of the source. -/
def endsWithDotExt (s ext : Path) : Bool :=
  List.isSuffixOf ('.' :: lowerStr ext) (lowerStr s)

/-- `models/data_models.py`, `FileTarget`. -/
structure FileTarget where
  src : Path
  device : Path
  dest_rel : Path
  cached : Bool := false
  from_docker : Bool := false
deriving DecidableEq

/-- `config/data_models.py`, `DeviceConfig` (the Python fields `type` and `path`
are rendered `dtype` and `dpath`). -/
structure DeviceConfig where
  name : Path
  dtype : Path
  relative_path : List Path
  file_type : Path := []
  container : Path := []
  dpath : Path := []
deriving DecidableEq

/-! ### `config/settings.py` -/

def OUTPUT_DIR : Path := "collected_rules".data

def DOCKER_TEMP_DIR : Path := joinPath OUTPUT_DIR "docker_temp".data

def COMMON_PATHS : List Path :=
  ["/etc".data, "/opt".data, "/usr/local".data, "/usr/share".data,
   "/var/lib".data, "/var".data]

def PROGRAM_PATHS : List Path :=
  ["/usr/share".data, "/usr/local/share".data, "/var/lib".data, "/opt".data]

/-- `SCAN_ORDER_PRIORITY`; `home` is `os.path.expanduser("~")`, an environment
value. -/
def SCAN_ORDER_PRIORITY (home : Path) : List (Path × List Path) :=
  [("常见路径".data, COMMON_PATHS),
   ("用户主目录".data, [home]),
   ("程序安装目录".data, PROGRAM_PATHS)]

/-! ### Tiered search (`collector._search_device_paths`)

`searchWith patterns base_paths` stands for the effectful probe
`FileOperations.search_rule_files(patterns, base_paths)`; the engine only
inspects its result list.  The embedding is instrumented with the list of
base-directory sets actually handed to the probe, in order. -/

/-- The tier loop of `_search_device_paths`: probe each tier in order and stop
at the first tier whose probe returns at least one item. -/
def search_tiers (searchWith : List Path → List Path → List Path)
    (patterns : List Path) :
    List (Path × List Path) → List Path × List (List Path)
  | [] => ([], [])
  | (_, search_paths) :: rest =>
    let matched_items := searchWith patterns search_paths
    if matched_items.isEmpty then
      let r := search_tiers searchWith patterns rest
      (r.1, search_paths :: r.2)
    else (matched_items, [search_paths])

/-- `collector._search_device_paths`.  When every tier probe is empty the code
runs one probe rooted at `/` and extends the (empty) accumulator with its
result exactly when that result is non-empty — which equals the probe result
itself in both cases. -/
def search_device_paths (searchWith : List Path → List Path → List Path)
    (tiers : List (Path × List Path)) (device_config : DeviceConfig) :
    List Path × List (List Path) :=
  let r := search_tiers searchWith device_config.relative_path tiers
  if r.1.isEmpty then
    (searchWith device_config.relative_path ["/".data], r.2 ++ [["/".data]])
  else r

/-! ### Global de-duplication (`collector._deduplicate_targets`) -/

/-- The loop of `_deduplicate_targets`; the Python `set` of seen source paths
is modelled as a list with membership. -/
def dedup_go (seen : List Path) (acc : List FileTarget) :
    List FileTarget → List FileTarget
  | [] => acc
  | t :: rest =>
    if t.src ∈ seen then dedup_go seen acc rest
    else dedup_go (t.src :: seen) (acc ++ [t]) rest

/-- `collector._deduplicate_targets`. -/
def deduplicate_targets (targets : List FileTarget) : List FileTarget :=
  dedup_go [] [] targets

/-! ### Hashing and change classification (`file_operations.calculate_file_hashes`) -/

/-- A JSON-object hash record, modelled by its lookup function
(`sourcePath → digest`); `none` means the key is absent. -/
abbrev HashRecord := Path → Option Path

/-- Python dict assignment `d[k] = v`. -/
def recordInsert (d : HashRecord) (k v : Path) : HashRecord :=
  fun q => if q = k then some v else d q

/-- The per-target loop of `calculate_file_hashes`.  `hashFn` models
`FileUtils.calculate_file_hash`; `none` means hashing raised and the error was
logged. -/
def calc_hashes_loop (hashFn : Path → Option Path) (old_hash_record : HashRecord) :
    List FileTarget → HashRecord → List FileTarget → Nat →
    HashRecord × List FileTarget × Nat
  | [], new_hash_record, changed_files, unchanged_count =>
    (new_hash_record, changed_files, unchanged_count)
  | target :: rest, new_hash_record, changed_files, unchanged_count =>
    match hashFn target.src with
    | some file_hash =>
      let new_rec := recordInsert new_hash_record target.src file_hash
      if old_hash_record target.src = some file_hash then
        calc_hashes_loop hashFn old_hash_record rest new_rec changed_files
          (unchanged_count + 1)
      else
        calc_hashes_loop hashFn old_hash_record rest new_rec
          (changed_files ++ [target]) unchanged_count
    | none =>
      calc_hashes_loop hashFn old_hash_record rest new_hash_record changed_files
        unchanged_count

/-- `file_operations.calculate_file_hashes`. -/
def calculate_file_hashes (hashFn : Path → Option Path)
    (targets : List FileTarget) (old_hash_record : HashRecord) :
    HashRecord × List FileTarget × Nat :=
  calc_hashes_loop hashFn old_hash_record targets (fun _ => none) [] 0

/-! ### Found-item conversion (`file_operations.process_found_items`) -/

/-- Read-only view of the host filesystem as the conversion code consumes it.
`walk d` returns, for every file below directory `d` in `os.walk` order, the
pair `(os.path.relpath(root, d), filename)`. -/
structure FSView where
  isFile : Path → Bool
  isDir : Path → Bool
  walk : Path → List (Path × Path)

/-- `file_utils.enumerate_directory_files` (`os.path.abspath` is the identity
on the already-absolute paths the engine feeds it). -/
def enumerate_directory_files (fsv : FSView) (directory_path : Path)
    (file_extension : Path) : List (Path × Path) :=
  if fsv.isFile directory_path then
    let filename := baseName directory_path
    if file_extension.isEmpty || endsWithDotExt filename file_extension then
      [(directory_path, filename)]
    else []
  else
    (fsv.walk directory_path).filterMap fun rf =>
      if !file_extension.isEmpty && !endsWithDotExt rf.2 file_extension then none
      else
        let destination_relative :=
          if rf.1 = ".".data then rf.2 else joinPath rf.1 rf.2
        some (joinPath directory_path destination_relative, destination_relative)

def ANCHOR_PATTERN : Path := "policy".data

/-- The exact-file branch of `process_found_items`: locate the anchor token in
the lowered path, slice everything after the anchor plus one separator
character, normalize separators; an empty result is dropped with an error, an
absent anchor keeps the file under its base filename with a warning. -/
def process_exact_file (item : Path) : List (Path × Path) :=
  match findSub (lowerStr item) (lowerStr ANCHOR_PATTERN) with
  | some anchor_index =>
    let policy_end_index := anchor_index + ANCHOR_PATTERN.length + 1
    let destination_relative := normalizeSep OS_SEP (item.drop policy_end_index)
    if destination_relative.isEmpty then []
    else [(item, destination_relative)]
  | none => [(item, baseName item)]

/-- `file_operations.process_found_items`. -/
def process_found_items (fsv : FSView) (found_items : List Path)
    (device_name : Path) (file_extension : Path) : List FileTarget :=
  found_items.foldl (fun targets item =>
    let files :=
      if fsv.isFile item && endsWithDotExt item file_extension then
        process_exact_file item
      else if fsv.isDir item then
        enumerate_directory_files fsv item file_extension
      else []
    files.foldl (fun ts sd =>
      if ts.any (fun t => decide (t.src = sd.1)) then ts
      else ts ++ [{ src := sd.1, device := device_name, dest_rel := sd.2,
                    cached := false, from_docker := false }]) targets) []

/-! ### Path cache (`cache_manager`, `collector._decide_scan_strategy`) -/

/-- The JSON path-cache object: appliance name to its list of
`(path, dest_rel)` entries, in key order. -/
abbrev PathCache := List (Path × List (Path × Path))

/-- `cache_manager.verify_cached_paths`; `pathExists` models `os.path.exists`. -/
def verify_cached_paths (pathExists : Path → Bool) (path_cache : PathCache) :
    PathCache :=
  path_cache.map fun dp => (dp.1, dp.2.filter (fun path_info => pathExists path_info.1))

/-- `collector._decide_scan_strategy`. -/
def decide_scan_strategy (pathExists : Path → Bool) (force_rescan : Bool)
    (path_cache : PathCache) : Bool × PathCache :=
  let use_cache := !force_rescan && !path_cache.isEmpty
  if use_cache then
    let verified_cache := verify_cached_paths pathExists path_cache
    if verified_cache.any (fun dp => decide (dp.2.length > 0)) then
      (true, verified_cache)
    else (false, [])
  else (false, [])

/-- `collector._process_cached_paths`; the second component is the list of
entries the loop appends to `new_path_cache[device_name]`. -/
def process_cached_paths (pathExists : Path → Bool) (device_name : Path)
    (cached_paths : List (Path × Path)) :
    List FileTarget × List (Path × Path) :=
  cached_paths.foldl (fun acc path_info =>
    if pathExists path_info.1 then
      (acc.1 ++ [{ src := path_info.1, device := device_name,
                   dest_rel := path_info.2, cached := true, from_docker := false }],
       acc.2 ++ [path_info])
    else acc) ([], [])

/-- Python `verified_cache.get(device_name)`-style lookup (`device_name in
verified_cache` paired with `verified_cache[device_name]`). -/
def lookupDevice (cache : PathCache) (name : Path) : Option (List (Path × Path)) :=
  (cache.find? (fun dp => decide (dp.1 = name))).map Prod.snd

/-- `collector._process_local_device`, returning the device's targets together
with the `new_path_cache` entries recorded for it.  Strategy 1 (cached fast
scan) runs when `use_cache` holds and the verified cache has a non-empty entry
for the device; strategy 2 (full tiered search) runs exactly otherwise. -/
def process_local_device (pathExists : Path → Bool)
    (searchWith : List Path → List Path → List Path) (home : Path) (fsv : FSView)
    (device_name : Path) (device_config : DeviceConfig)
    (use_cache : Bool) (verified_cache : PathCache) :
    List FileTarget × List (Path × Path) :=
  let entry := lookupDevice verified_cache device_name
  let strategy1 := use_cache && entry.isSome && !(entry.getD []).isEmpty
  let c :=
    if strategy1 then process_cached_paths pathExists device_name (entry.getD [])
    else ([], [])
  let f :=
    if !strategy1 then
      let found_items :=
        (search_device_paths searchWith (SCAN_ORDER_PRIORITY home) device_config).1
      let new_targets :=
        process_found_items fsv found_items device_name device_config.file_type
      (new_targets, new_targets.map fun t => (t.src, t.dest_rel))
    else ([], [])
  (c.1 ++ f.1, c.2 ++ f.2)

/-- Target accumulation of `collector._scan_rule_files`: per-device collection
results are concatenated in device order and the concatenation is globally
deduplicated.  `collectDevice` stands for the docker/local dispatch in the
loop body. -/
def scan_rule_files (collectDevice : DeviceConfig → List FileTarget)
    (devices : List DeviceConfig) : List FileTarget :=
  deduplicate_targets (devices.foldl (fun all_targets d => all_targets ++ collectDevice d) [])

/-! ### Container extraction (`docker_operations.collect_from_docker_container`) -/

/-- `models/data_models.py`, `DockerContainerInfo`. -/
structure DockerContainerInfo where
  container_id : Path
  is_running : Bool
  resolved_id : Path
deriving DecidableEq

/-- Outcomes of the external docker invocations for one collection, as
`collect_from_docker_container` consumes them: the resolved container info,
the in-container existence test, the success reports of the two extraction
methods, the post-extraction emptiness test, and the `os.walk` of the
temporary destination ((filename, relative path from the temp root) pairs). -/
structure DockerEnv where
  container_info : Option DockerContainerInfo
  path_in_container : Bool
  cp_ok : Bool
  tar_ok : Bool
  extracted_nonempty : Bool
  walk : List (Path × Path)

/-- The ordered strategy loop of `collect_from_docker_container`, instrumented
with the names of the methods actually attempted, in order. -/
def run_extraction_methods : List (Path × Bool) → Bool × List Path
  | [] => (false, [])
  | (method_name, ok) :: rest =>
    if ok then (true, [method_name])
    else
      let r := run_extraction_methods rest
      (r.1, method_name :: r.2)

/-- `docker_operations.collect_from_docker_container`, returning the targets
plus the attempted-method trace. -/
def collect_from_docker_container (env : DockerEnv)
    (device_name file_extension : Path) : List FileTarget × List Path :=
  match env.container_info with
  | none => ([], [])
  | some container_info =>
    if !container_info.is_running then ([], [])
    else if !env.path_in_container then ([], [])
    else
      let short_id := container_info.resolved_id.take 12
      let temp_destination := joinPath (joinPath DOCKER_TEMP_DIR device_name) short_id
      let methods : List (Path × Bool) :=
        [("docker cp 目录".data, env.cp_ok), ("tar 流复制".data, env.tar_ok)]
      let r := run_extraction_methods methods
      if !r.1 then ([], r.2)
      else if !env.extracted_nonempty then ([], r.2)
      else
        (env.walk.filterMap (fun wf =>
          if !file_extension.isEmpty && !endsWithDotExt wf.1 file_extension then none
          else some { src := joinPath temp_destination wf.2, device := device_name,
                      dest_rel := wf.2, cached := false, from_docker := true }),
         r.2)

/-! ### Crash-safe copy (`file_utils.safe_copy`, `file_operations.copy_changed_files`) -/

/-- The host filesystem as a map from path to file content (`none` = absent). -/
abbrev FS := Path → Option Path

def fsSet (fs : FS) (p : Path) (v : Option Path) : FS :=
  fun q => if q = p then v else fs q

/-- Outcome oracle for one `safe_copy` execution:
`ok` — `shutil.copy2` and `os.replace` both succeed;
`copyRaises leftover` — `copy2` raises midway, possibly leaving stray bytes at
the temp path; `replaceRaises` — `copy2` wrote the temp file in full and
`os.replace` raises without effect (rename is atomic). -/
inductive CopyOutcome where
  | ok
  | copyRaises (leftover : Option Path)
  | replaceRaises
deriving DecidableEq

/-- `file_utils.safe_copy` over the abstract filesystem.  The exception handler
removes the temp file when it exists, which on `FS` is setting the temp path to
`none` in every case. -/
def safe_copy (fs : FS) (source destination : Path) (outcome : CopyOutcome) :
    FS × Bool :=
  let temp_path := destination ++ ".tmp".data
  match outcome with
  | .ok =>
    match fs source with
    | some content =>
      let fs1 := fsSet fs temp_path (some content)
      (fsSet (fsSet fs1 temp_path none) destination (some content), true)
    | none => (fsSet fs temp_path none, false)
  | .copyRaises leftover =>
    (fsSet (fsSet fs temp_path leftover) temp_path none, false)
  | .replaceRaises =>
    match fs source with
    | some content =>
      (fsSet (fsSet fs temp_path (some content)) temp_path none, false)
    | none => (fsSet fs temp_path none, false)

/-- `file_operations.copy_changed_files`, threading the abstract filesystem and
recording every `safe_copy` invocation as a `(source, destination)` pair.
Directory creation does not touch file contents and is not modelled. -/
def copy_changed_files (outcomeOf : FileTarget → CopyOutcome) :
    List FileTarget → FS → List Path → List (Path × Path) →
    FS × List Path × List (Path × Path)
  | [], fs, copied_files, calls => (fs, copied_files, calls)
  | target :: rest, fs, copied_files, calls =>
    let destination_base := joinPath OUTPUT_DIR target.device
    let destination_path := joinPath destination_base target.dest_rel
    let r := safe_copy fs target.src destination_path (outcomeOf target)
    copy_changed_files outcomeOf rest r.1
      (if r.2 then copied_files ++ [destination_path] else copied_files)
      (calls ++ [(target.src, destination_path)])

/-- `cache_manager.save_hash_record`: `json.dump` over a file opened with mode
`"w"` replaces the persisted record wholesale; the previously persisted record
does not influence the result. -/
def save_hash_record (_persisted : HashRecord) (hash_record : HashRecord) :
    HashRecord :=
  hash_record

/-! ## Theorems -/

/-- The tier loop either stops at the first tier whose probe is non-empty —
having probed exactly the earlier (all-empty) tiers before it — or probes
every tier and returns the empty accumulator. -/
theorem search_tiers_spec (searchWith : List Path → List Path → List Path)
    (patterns : List Path) (tiers : List (Path × List Path)) :
    (∃ pre d sp post, tiers = pre ++ (d, sp) :: post ∧
        (∀ t ∈ pre, searchWith patterns t.2 = []) ∧
        searchWith patterns sp ≠ [] ∧
        search_tiers searchWith patterns tiers =
          (searchWith patterns sp, pre.map Prod.snd ++ [sp])) ∨
    ((∀ t ∈ tiers, searchWith patterns t.2 = []) ∧
        search_tiers searchWith patterns tiers = ([], tiers.map Prod.snd)) := by
  induction tiers with
  | nil => exact Or.inr ⟨by simp, rfl⟩
  | cons hd rest ih =>
    obtain ⟨d, sp⟩ := hd
    by_cases h : searchWith patterns sp = []
    · rcases ih with ⟨pre, d', sp', post, heq, hpre, hne, hres⟩ | ⟨hall, hres⟩
      · refine Or.inl ⟨(d, sp) :: pre, d', sp', post, by rw [heq]; rfl, ?_, hne, ?_⟩
        · intro t ht
          rcases List.mem_cons.1 ht with rfl | ht
          · exact h
          · exact hpre t ht
        · show search_tiers searchWith patterns ((d, sp) :: rest) = _
          simp only [search_tiers, h, List.isEmpty_nil, if_true, hres]
          simp
      · refine Or.inr ⟨?_, ?_⟩
        · intro t ht
          rcases List.mem_cons.1 ht with rfl | ht
          · exact h
          · exact hall t ht
        · show search_tiers searchWith patterns ((d, sp) :: rest) = _
          simp only [search_tiers, h, List.isEmpty_nil, if_true, hres]
          simp
    · refine Or.inl ⟨[], d, sp, rest, rfl, by simp, h, ?_⟩
      show search_tiers searchWith patterns ((d, sp) :: rest) = _
      simp only [search_tiers]
      rw [if_neg (by simpa [List.isEmpty_iff] using h)]
      simp

/-- C1: for a local appliance scanned without a usable path cache, the
search-location tiers of `SCAN_ORDER_PRIORITY` are probed in their fixed
configured order and the search stops at (and returns the matches of) the
first tier whose probe yields at least one item — the probe trace is exactly
the earlier all-empty tiers followed by that tier, so later tiers are never
probed and no union is taken; if every tier yields zero matches, exactly one
additional probe rooted at `/` is made and its result (possibly empty) is the
appliance's found-item list. -/
theorem C1_priority_search_with_escalation
    (searchWith : List Path → List Path → List Path) (home : Path)
    (device_config : DeviceConfig) :
    (∃ pre d sp post,
        SCAN_ORDER_PRIORITY home = pre ++ (d, sp) :: post ∧
        (∀ t ∈ pre, searchWith device_config.relative_path t.2 = []) ∧
        searchWith device_config.relative_path sp ≠ [] ∧
        search_device_paths searchWith (SCAN_ORDER_PRIORITY home) device_config =
          (searchWith device_config.relative_path sp, pre.map Prod.snd ++ [sp])) ∨
    ((∀ t ∈ SCAN_ORDER_PRIORITY home,
        searchWith device_config.relative_path t.2 = []) ∧
        search_device_paths searchWith (SCAN_ORDER_PRIORITY home) device_config =
          (searchWith device_config.relative_path ["/".data],
           (SCAN_ORDER_PRIORITY home).map Prod.snd ++ [["/".data]])) := by
  rcases search_tiers_spec searchWith device_config.relative_path
      (SCAN_ORDER_PRIORITY home) with
    ⟨pre, d, sp, post, heq, hpre, hne, hres⟩ | ⟨hall, hres⟩
  · refine Or.inl ⟨pre, d, sp, post, heq, hpre, hne, ?_⟩
    unfold search_device_paths
    rw [hres]
    simp only []
    rw [if_neg (by simpa [List.isEmpty_iff] using hne)]
  · refine Or.inr ⟨hall, ?_⟩
    unfold search_device_paths
    rw [hres]
    simp

/-- The accumulator of the dedup loop is a pure prefix. -/
theorem dedup_go_acc (ts : List FileTarget) (seen : List Path) (acc : List FileTarget) :
    dedup_go seen acc ts = acc ++ dedup_go seen [] ts := by
  induction ts generalizing seen acc with
  | nil => simp [dedup_go]
  | cons t rest ih =>
    by_cases h : t.src ∈ seen
    · simp only [dedup_go, if_pos h]
      exact ih seen acc
    · simp only [dedup_go, if_neg h]
      rw [ih _ (acc ++ [t]), ih _ ([] ++ [t])]
      simp

/-- Unfolding step of the dedup loop on an unseen source path. -/
theorem dedup_go_cons_new {t : FileTarget} {seen : List Path}
    (rest : List FileTarget) (h : t.src ∉ seen) :
    dedup_go seen [] (t :: rest) = t :: dedup_go (t.src :: seen) [] rest := by
  simp only [dedup_go, if_neg h]
  rw [dedup_go_acc]
  rfl

/-- The dedup loop result has pairwise-distinct source paths, none of them
in `seen`. -/
theorem dedup_go_nodup (ts : List FileTarget) (seen : List Path) :
    ((dedup_go seen [] ts).map FileTarget.src).Nodup ∧
    ∀ s ∈ (dedup_go seen [] ts).map FileTarget.src, s ∉ seen := by
  induction ts generalizing seen with
  | nil => simp [dedup_go]
  | cons t rest ih =>
    by_cases h : t.src ∈ seen
    · simpa only [dedup_go, if_pos h] using ih seen
    · obtain ⟨hnd, hseen⟩ := ih (t.src :: seen)
      rw [dedup_go_cons_new rest h, List.map_cons]
      constructor
      · exact List.nodup_cons.2
          ⟨fun hmem => hseen t.src hmem (List.mem_cons_self _ _), hnd⟩
      · intro s hs
        rcases List.mem_cons.1 hs with rfl | hs
        · exact h
        · exact fun hc => hseen s hs (List.mem_cons_of_mem _ hc)

/-- For every source path, the dedup loop keeps exactly the first target
carrying it (and nothing when the path was already seen). -/
theorem dedup_go_filter (ts : List FileTarget) (seen : List Path) (s : Path) :
    (dedup_go seen [] ts).filter (fun t => decide (t.src = s)) =
      if s ∈ seen then []
      else (ts.filter (fun t => decide (t.src = s))).take 1 := by
  induction ts generalizing seen with
  | nil => simp [dedup_go]
  | cons t rest ih =>
    by_cases h : t.src ∈ seen
    · simp only [dedup_go, if_pos h]
      rw [ih]
      by_cases hs : s ∈ seen
      · simp [hs]
      · have hts : ¬ t.src = s := fun hc => hs (hc ▸ h)
        simp [hs, List.filter_cons, hts]
    · rw [dedup_go_cons_new rest h, List.filter_cons, List.filter_cons]
      by_cases hts : t.src = s
      · subst hts
        simp only [decide_True, if_true, ih, cond_true]
        rw [if_pos (List.mem_cons_self _ _), if_neg h]
        simp
      · have hpt : decide (t.src = s) = false := by simp [hts]
        simp only [hpt, Bool.false_eq_true, if_false, ih]
        by_cases hs : s ∈ seen
        · rw [if_pos hs, if_pos (List.mem_cons_of_mem _ hs)]
        · rw [if_neg hs, if_neg (fun hc => by
            rcases List.mem_cons.1 hc with rfl | hc
            · exact hts rfl
            · exact hs hc)]

/-- The dedup loop result is a sublist of its input. -/
theorem dedup_go_sublist (ts : List FileTarget) (seen : List Path) :
    List.Sublist (dedup_go seen [] ts) ts := by
  induction ts generalizing seen with
  | nil => simp [dedup_go]
  | cons t rest ih =>
    by_cases h : t.src ∈ seen
    · simp only [dedup_go, if_pos h]
      exact (ih seen).cons t
    · rw [dedup_go_cons_new rest h]
      exact (ih (t.src :: seen)).cons₂ t

/-- C2: the target list passed on to hashing/copy — the deduplicated
concatenation of all appliances' discoveries in device order — contains each
absolute source path at most once, is a sublist of the raw discovery list,
and for each source path keeps exactly the first target discovered with it;
in particular two appliances discovering the same source path contribute one
target. -/
theorem C2_global_dedup_first_wins
    (collectDevice : DeviceConfig → List FileTarget) (devices : List DeviceConfig) :
    ((scan_rule_files collectDevice devices).map FileTarget.src).Nodup ∧
    List.Sublist (scan_rule_files collectDevice devices)
      (devices.foldl (fun all_targets d => all_targets ++ collectDevice d) []) ∧
    ∀ s, (scan_rule_files collectDevice devices).filter (fun t => decide (t.src = s)) =
      ((devices.foldl (fun all_targets d => all_targets ++ collectDevice d) []).filter
        (fun t => decide (t.src = s))).take 1 := by
  refine ⟨(dedup_go_nodup _ []).1, dedup_go_sublist _ [], fun s => ?_⟩
  simpa using dedup_go_filter
    (devices.foldl (fun all_targets d => all_targets ++ collectDevice d) []) [] s

/-- Closed form of the hashing loop: the new record is the fold of the
successful digests, the changed list collects (in order) the targets whose
digest is computable and disagrees with the previous record, and the
unchanged counter counts the computable agreeing ones. -/
theorem calc_hashes_loop_spec (hashFn : Path → Option Path) (old : HashRecord)
    (ts : List FileTarget) (nr : HashRecord) (ch : List FileTarget) (u : Nat) :
    calc_hashes_loop hashFn old ts nr ch u =
      (ts.foldl (fun d t =>
          match hashFn t.src with
          | some h => recordInsert d t.src h
          | none => d) nr,
       ch ++ ts.filter (fun t =>
          (hashFn t.src).isSome && !decide (old t.src = hashFn t.src)),
       u + (ts.filter (fun t =>
          (hashFn t.src).isSome && decide (old t.src = hashFn t.src))).length) := by
  induction ts generalizing nr ch u with
  | nil => simp [calc_hashes_loop]
  | cons t rest ih =>
    cases hf : hashFn t.src with
    | none =>
      simp only [calc_hashes_loop, hf, List.foldl_cons, List.filter_cons,
        Option.isSome_none, Bool.false_and, Bool.false_eq_true, if_false]
      exact ih nr ch u
    | some h =>
      by_cases hold : old t.src = some h
      · have hcond : old t.src = hashFn t.src := by rw [hf, hold]
        simp only [calc_hashes_loop, hf, if_pos hold, List.foldl_cons,
          List.filter_cons, Option.isSome_some, Bool.true_and, hcond, hf,
          decide_True, Bool.not_true, Bool.false_eq_true, if_false, if_true,
          List.length_cons]
        rw [ih]
        refine congrArg _ (congrArg _ ?_)
        omega
      · have hcond : ¬ old t.src = hashFn t.src := by rw [hf]; exact hold
        have hdec : decide (old t.src = hashFn t.src) = false := by
          simp [hcond]
        simp only [calc_hashes_loop, hf, if_neg hold, List.foldl_cons,
          List.filter_cons, Option.isSome_some, Bool.true_and, hdec,
          Bool.not_false, if_true, Bool.false_eq_true, if_false]
        rw [ih]
        simp [hold]

/-- Lookup in the folded digest record: a path maps to its fresh digest when
some target carries it and hashing it succeeds, and otherwise falls through
to the fold's starting record. -/
theorem calc_hashes_record_lookup (hashFn : Path → Option Path)
    (ts : List FileTarget) (d : HashRecord) (p : Path) :
    (ts.foldl (fun d t =>
        match hashFn t.src with
        | some h => recordInsert d t.src h
        | none => d) d) p =
      if ts.any (fun t => decide (t.src = p) && (hashFn p).isSome) then hashFn p
      else d p := by
  induction ts generalizing d with
  | nil => simp
  | cons t rest ih =>
    cases hf : hashFn t.src with
    | none =>
      simp only [List.foldl_cons, hf, List.any_cons]
      rw [ih]
      by_cases hp : t.src = p
      · subst hp
        simp [hf]
      · simp [hp]
    | some h =>
      simp only [List.foldl_cons, hf, List.any_cons]
      rw [ih]
      by_cases hp : t.src = p
      · subst hp
        by_cases hrest :
            rest.any (fun u => decide (u.src = t.src) && (hashFn t.src).isSome) = true
        · rw [if_pos hrest, if_pos (by simp [hf, hrest])]
        · rw [if_neg hrest, if_pos (by simp [hf])]
          simp [recordInsert, hf]
      · have hri : recordInsert d t.src h p = d p := by
          unfold recordInsert
          rw [if_neg (fun hc => hp hc.symm)]
        simp [hp, hri]

/-- C3: a target of the hashing phase is classified changed exactly when its
digest is computable and disagrees with the previous record's entry for its
path (which covers the path being absent there), and unchanged otherwise (the
unchanged counter counts exactly the computable agreeing targets); the new
record's entry for the target's path equals its fresh digest result, so a
target whose hash computation fails (`hashFn` returns `none`) is excluded from
both the new record and the changed list, while every successfully hashed
target's path-to-digest pair is entered — and the pass is a total function,
raising nothing. -/
theorem C3_hash_change_classification (hashFn : Path → Option Path)
    (targets : List FileTarget) (old_hash_record : HashRecord) (t : FileTarget)
    (ht : t ∈ targets) :
    (t ∈ (calculate_file_hashes hashFn targets old_hash_record).2.1 ↔
      (hashFn t.src).isSome = true ∧ old_hash_record t.src ≠ hashFn t.src) ∧
    (calculate_file_hashes hashFn targets old_hash_record).1 t.src = hashFn t.src ∧
    (calculate_file_hashes hashFn targets old_hash_record).2.2 =
      (targets.filter (fun u =>
        (hashFn u.src).isSome && decide (old_hash_record u.src = hashFn u.src))).length := by
  unfold calculate_file_hashes
  rw [calc_hashes_loop_spec]
  refine ⟨?_, ?_, by simp⟩
  · rw [List.nil_append, List.mem_filter]
    simp [ht]
  · dsimp only
    rw [calc_hashes_record_lookup]
    cases hf : hashFn t.src with
    | none =>
      rw [if_neg (by simp [hf])]
    | some h =>
      rw [if_pos (List.any_eq_true.2 ⟨t, ht, by simp [hf]⟩)]

/-- Witness for C3: a single target whose path is absent from the previous
hash record is classified changed and its fresh digest is entered in the new
record. -/
theorem C3_hash_change_classification_witness :
    (calculate_file_hashes (fun _ => some "abc".data)
        [{ src := "/a/x.rules".data, device := "suricata".data,
           dest_rel := "x.rules".data, cached := false, from_docker := false }]
        (fun _ => none)).1 "/a/x.rules".data = some "abc".data ∧
    ({ src := "/a/x.rules".data, device := "suricata".data,
       dest_rel := "x.rules".data, cached := false, from_docker := false } : FileTarget) ∈
      (calculate_file_hashes (fun _ => some "abc".data)
        [{ src := "/a/x.rules".data, device := "suricata".data,
           dest_rel := "x.rules".data, cached := false, from_docker := false }]
        (fun _ => none)).2.1 := by
  have h := C3_hash_change_classification (fun _ => some "abc".data)
    [{ src := "/a/x.rules".data, device := "suricata".data,
       dest_rel := "x.rules".data, cached := false, from_docker := false }]
    (fun _ => none)
    { src := "/a/x.rules".data, device := "suricata".data,
      dest_rel := "x.rules".data, cached := false, from_docker := false }
    (by simp)
  exact ⟨h.2.1, h.1.mpr ⟨by decide, by decide⟩⟩

/-- C4: the path cache is accepted as the basis for a run exactly when the run
is not a forced full rescan, the loaded cache is non-empty, and the verified
cache retains at least one appliance with at least one valid entry; on
acceptance the one verified cache is handed to every appliance, and in every
other case the strategy carries an empty verified cache and every local
appliance — whatever its name or configuration — takes the full fresh tiered
search with no cached targets: the decision is global, never per-appliance. -/
theorem C4_cache_accept_all_or_nothing (pathExists : Path → Bool)
    (force_rescan : Bool) (path_cache : PathCache) :
    ((decide_scan_strategy pathExists force_rescan path_cache).1 = true ↔
      force_rescan = false ∧ path_cache ≠ [] ∧
      ∃ dp ∈ verify_cached_paths pathExists path_cache, dp.2 ≠ []) ∧
    ((decide_scan_strategy pathExists force_rescan path_cache).1 = true →
      (decide_scan_strategy pathExists force_rescan path_cache).2 =
        verify_cached_paths pathExists path_cache) ∧
    ((decide_scan_strategy pathExists force_rescan path_cache).1 = false →
      (decide_scan_strategy pathExists force_rescan path_cache).2 = [] ∧
      ∀ searchWith home fsv device_name device_config,
        (process_local_device pathExists searchWith home fsv device_name
            device_config false
            (decide_scan_strategy pathExists force_rescan path_cache).2).1 =
          process_found_items fsv
            (search_device_paths searchWith (SCAN_ORDER_PRIORITY home)
              device_config).1
            device_name device_config.file_type) := by
  have hfresh : ∀ (vc : PathCache) searchWith home fsv device_name device_config,
      (process_local_device pathExists searchWith home fsv device_name
          device_config false vc).1 =
        process_found_items fsv
          (search_device_paths searchWith (SCAN_ORDER_PRIORITY home)
            device_config).1
          device_name device_config.file_type := by
    intro vc searchWith home fsv device_name device_config
    simp [process_local_device]
  cases force_rescan with
  | true =>
    have key : decide_scan_strategy pathExists true path_cache = (false, []) := by
      simp [decide_scan_strategy]
    rw [key]
    exact ⟨by simp, by simp, fun _ => ⟨rfl, fun s h f n c => hfresh _ s h f n c⟩⟩
  | false =>
    by_cases hc : path_cache.isEmpty
    · have hnil : path_cache = [] := List.isEmpty_iff.1 hc
      subst hnil
      have key : decide_scan_strategy pathExists false ([] : PathCache) = (false, []) := by
        simp [decide_scan_strategy]
      rw [key]
      exact ⟨by simp, by simp, fun _ => ⟨rfl, fun s h f n c => hfresh _ s h f n c⟩⟩
    · have hcf : path_cache.isEmpty = false := by simpa using hc
      have hne : path_cache ≠ [] := by
        intro h
        rw [h] at hcf
        simp at hcf
      by_cases hv : (verify_cached_paths pathExists path_cache).any
          (fun dp => decide (dp.2.length > 0)) = true
      · have key : decide_scan_strategy pathExists false path_cache =
            (true, verify_cached_paths pathExists path_cache) := by
          simp [decide_scan_strategy, hcf, hv]
        rw [key]
        refine ⟨?_, fun _ => rfl, fun hcontra => by simp at hcontra⟩
        constructor
        · intro _
          obtain ⟨dp, hdp, hlen⟩ := List.any_eq_true.1 hv
          exact ⟨rfl, hne, dp, hdp,
            by simpa [List.length_pos] using of_decide_eq_true hlen⟩
        · exact fun _ => rfl
      · have hvf : (verify_cached_paths pathExists path_cache).any
            (fun dp => decide (dp.2.length > 0)) = false := by simpa using hv
        have key : decide_scan_strategy pathExists false path_cache = (false, []) := by
          simp [decide_scan_strategy, hcf, hvf]
        rw [key]
        refine ⟨?_, by simp, fun _ => ⟨rfl, fun s h f n c => hfresh _ s h f n c⟩⟩
        refine iff_of_false (by simp) ?_
        rintro ⟨-, -, dp, hdp, hlen⟩
        exact hv (List.any_eq_true.2
          ⟨dp, hdp, decide_eq_true (List.length_pos.2 hlen)⟩)

/-- Witness for C4: a one-device cache whose single entry exists is accepted
and the verified cache is returned. -/
theorem C4_cache_accept_all_or_nothing_witness :
    (decide_scan_strategy (fun _ => true) false
        [("suricata".data, [("/etc/suricata/rules".data, "local.rules".data)])]).1
      = true ∧
    (decide_scan_strategy (fun _ => true) false
        [("suricata".data, [("/etc/suricata/rules".data, "local.rules".data)])]).2
      = verify_cached_paths (fun _ => true)
          [("suricata".data, [("/etc/suricata/rules".data, "local.rules".data)])] := by
  have h := C4_cache_accept_all_or_nothing (fun _ => true) false
    [("suricata".data, [("/etc/suricata/rules".data, "local.rules".data)])]
  have h1 : (decide_scan_strategy (fun _ => true) false
      [("suricata".data, [("/etc/suricata/rules".data, "local.rules".data)])]).1
      = true := by decide
  exact ⟨h1, h.2.1 h1⟩

/-- Separator normalization never changes emptiness. -/
theorem normalizeSep_eq_nil {sep : Char} {l : Path} :
    normalizeSep sep l = [] ↔ l = [] := by
  cases l <;> simp [normalizeSep]

/-- C5: an exact-file match containing the anchor token gets, as its
destination-relative path, everything after the first occurrence of the
anchor token plus its trailing separator character (the slice from
`anchor index + length "policy" + 1`), normalized to forward slashes, and is
kept as a target; when the anchor token does not occur, the match is still
kept as a target whose destination-relative path is its base filename (the
code logs a warning there). -/
theorem C5_anchor_relative_path (fsv : FSView)
    (device_name file_extension item : Path)
    (hfile : fsv.isFile item = true)
    (hext : endsWithDotExt item file_extension = true) :
    (∀ i, findSub (lowerStr item) (lowerStr ANCHOR_PATTERN) = some i →
      item.drop (i + ANCHOR_PATTERN.length + 1) ≠ [] →
      process_found_items fsv [item] device_name file_extension =
        [{ src := item, device := device_name,
           dest_rel := normalizeSep OS_SEP (item.drop (i + ANCHOR_PATTERN.length + 1)),
           cached := false, from_docker := false }]) ∧
    (findSub (lowerStr item) (lowerStr ANCHOR_PATTERN) = none →
      process_found_items fsv [item] device_name file_extension =
        [{ src := item, device := device_name, dest_rel := baseName item,
           cached := false, from_docker := false }]) := by
  constructor
  · intro i hanchor hne
    unfold process_found_items
    rw [List.foldl_cons, List.foldl_nil]
    simp only [hfile, hext, Bool.and_self, if_true]
    unfold process_exact_file
    rw [hanchor]
    simp only [List.isEmpty_iff, normalizeSep_eq_nil]
    rw [if_neg hne]
    simp
  · intro hanchor
    unfold process_found_items
    rw [List.foldl_cons, List.foldl_nil]
    simp only [hfile, hext, Bool.and_self, if_true]
    unfold process_exact_file
    rw [hanchor]
    simp

/-- Witness for C5 at the spec's example: the zeek policy file yields the
destination-relative path `protocols/ssh/detect-bruteforcing.zeek`. -/
theorem C5_anchor_relative_path_witness :
    findSub
        (lowerStr "/opt/zeek/share/zeek/policy/protocols/ssh/detect-bruteforcing.zeek".data)
        (lowerStr ANCHOR_PATTERN) = some 21 ∧
    process_found_items
        { isFile := fun _ => true, isDir := fun _ => false, walk := fun _ => [] }
        ["/opt/zeek/share/zeek/policy/protocols/ssh/detect-bruteforcing.zeek".data]
        "zeek".data "zeek".data =
      [{ src := "/opt/zeek/share/zeek/policy/protocols/ssh/detect-bruteforcing.zeek".data,
         device := "zeek".data,
         dest_rel := "protocols/ssh/detect-bruteforcing.zeek".data,
         cached := false, from_docker := false }] := by
  constructor
  · decide
  · have h := (C5_anchor_relative_path
      { isFile := fun _ => true, isDir := fun _ => false, walk := fun _ => [] }
      "zeek".data "zeek".data
      "/opt/zeek/share/zeek/policy/protocols/ssh/detect-bruteforcing.zeek".data
      rfl (by decide)).1 21 (by decide) (by decide)
    rw [h]
    decide

/-- C10: an exact-file match that contains the anchor token but where nothing
follows the anchor token plus its trailing separator character — the computed
destination-relative path is empty — is dropped from the target list entirely
(the code logs an error), unlike the anchor-absent case, which keeps the file
under its base filename. -/
theorem C10_empty_anchor_remainder_dropped (fsv : FSView)
    (device_name file_extension item : Path) (i : Nat)
    (hfile : fsv.isFile item = true)
    (hext : endsWithDotExt item file_extension = true)
    (hanchor : findSub (lowerStr item) (lowerStr ANCHOR_PATTERN) = some i)
    (hempty : item.drop (i + ANCHOR_PATTERN.length + 1) = []) :
    process_found_items fsv [item] device_name file_extension = [] := by
  unfold process_found_items
  rw [List.foldl_cons, List.foldl_nil]
  simp only [hfile, hext, Bool.and_self, if_true]
  unfold process_exact_file
  rw [hanchor]
  simp [hempty, normalizeSep]

/-- Witness for C10: the hidden file `/a/.policy` collected under extension
`policy` contains the anchor at index 4, has an empty remainder after the
anchor-plus-separator slice, and produces no target. -/
theorem C10_empty_anchor_remainder_dropped_witness :
    endsWithDotExt "/a/.policy".data "policy".data = true ∧
    findSub (lowerStr "/a/.policy".data) (lowerStr ANCHOR_PATTERN) = some 4 ∧
    "/a/.policy".data.drop (4 + ANCHOR_PATTERN.length + 1) = [] ∧
    process_found_items
        { isFile := fun _ => true, isDir := fun _ => false, walk := fun _ => [] }
        ["/a/.policy".data] "modsec".data "policy".data = [] := by
  refine ⟨by decide, by decide, by decide, ?_⟩
  exact C10_empty_anchor_remainder_dropped
    { isFile := fun _ => true, isDir := fun _ => false, walk := fun _ => [] }
    "modsec".data "policy".data "/a/.policy".data 4
    rfl (by decide) (by decide) (by decide)

/-- C6: for a container-hosted appliance that passes resolution, liveness and
in-container path checks, the extraction methods are attempted in the fixed
order docker-cp-of-directory then tar-stream — the attempted-method trace is
just the first method when it succeeds and both methods otherwise — and when
both methods fail the appliance contributes zero targets; a device whose
collection is empty leaves the scan of the remaining devices unchanged, so
the run continues. -/
theorem C6_docker_extraction_fallback (env : DockerEnv)
    (device_name file_extension : Path) (info : DockerContainerInfo)
    (hres : env.container_info = some info)
    (hrun : info.is_running = true)
    (hpath : env.path_in_container = true) :
    ((collect_from_docker_container env device_name file_extension).2 =
      if env.cp_ok then ["docker cp 目录".data]
      else ["docker cp 目录".data, "tar 流复制".data]) ∧
    (env.cp_ok = false → env.tar_ok = false →
      (collect_from_docker_container env device_name file_extension).1 = []) ∧
    (∀ (collectDevice : DeviceConfig → List FileTarget)
        (pre post : List DeviceConfig) (d : DeviceConfig),
      collectDevice d = [] →
      scan_rule_files collectDevice (pre ++ d :: post) =
        scan_rule_files collectDevice (pre ++ post)) := by
  refine ⟨?_, ?_, ?_⟩
  · unfold collect_from_docker_container
    rw [hres]
    simp only [hrun, hpath, Bool.not_true, Bool.false_eq_true, if_false]
    cases hcp : env.cp_ok <;> cases htar : env.tar_ok <;>
      cases hne : env.extracted_nonempty <;>
      simp [run_extraction_methods]
  · intro hcp htar
    unfold collect_from_docker_container
    rw [hres]
    simp [hrun, hpath, hcp, htar, run_extraction_methods]
  · intro collectDevice pre post d hd
    unfold scan_rule_files
    rw [List.foldl_append, List.foldl_append, List.foldl_cons, hd, List.append_nil]

/-- Witness for C6: a resolved, running container with the configured path
present, both extraction methods failing — both methods appear in the trace
and the appliance contributes zero targets. -/
theorem C6_docker_extraction_fallback_witness :
    (collect_from_docker_container
        { container_info := some { container_id := "86e4e41a871c".data,
                                   is_running := true,
                                   resolved_id := "86e4e41a871cffff".data },
          path_in_container := true, cp_ok := false, tar_ok := false,
          extracted_nonempty := false, walk := [] }
        "堡塔云waf".data "json".data).2 =
      ["docker cp 目录".data, "tar 流复制".data] ∧
    (collect_from_docker_container
        { container_info := some { container_id := "86e4e41a871c".data,
                                   is_running := true,
                                   resolved_id := "86e4e41a871cffff".data },
          path_in_container := true, cp_ok := false, tar_ok := false,
          extracted_nonempty := false, walk := [] }
        "堡塔云waf".data "json".data).1 = [] := by
  have h := C6_docker_extraction_fallback
    { container_info := some { container_id := "86e4e41a871c".data,
                               is_running := true,
                               resolved_id := "86e4e41a871cffff".data },
      path_in_container := true, cp_ok := false, tar_ok := false,
      extracted_nonempty := false, walk := [] }
    "堡塔云waf".data "json".data
    { container_id := "86e4e41a871c".data, is_running := true,
      resolved_id := "86e4e41a871cffff".data }
    rfl rfl rfl
  exact ⟨by simpa using h.1, h.2.1 rfl rfl⟩

/-- The temp path of `safe_copy` is a strictly longer sibling of the
destination. -/
theorem tmp_path_ne (destination : Path) :
    destination ++ ".tmp".data ≠ destination := by
  intro h
  have hlen := congrArg List.length h
  simp [List.length_append] at hlen

/-- Every `safe_copy` call appears exactly once per changed target, in order. -/
theorem copy_changed_files_calls (outcomeOf : FileTarget → CopyOutcome)
    (ts : List FileTarget) :
    ∀ (fs : FS) (copied_files : List Path) (calls : List (Path × Path)),
    (copy_changed_files outcomeOf ts fs copied_files calls).2.2 =
      calls ++ ts.map (fun t =>
        (t.src, joinPath (joinPath OUTPUT_DIR t.device) t.dest_rel)) := by
  induction ts with
  | nil =>
    intro fs copied_files calls
    simp [copy_changed_files]
  | cons t rest ih =>
    intro fs copied_files calls
    simp only [copy_changed_files]
    rw [ih]
    simp

/-- C7: the copy of a changed target is crash-safe — on success the final
destination holds exactly the source content and the sibling temp file
(`destination + ".tmp"`) is gone (atomic rename), and on any failure the
final destination is untouched (never a partially-written file: partial bytes
can only ever sit at the temp path) and the temp file is removed; moreover
the copy loop invokes `safe_copy` exactly once per changed target, so a
failed target is skipped without retry. -/
theorem C7_crash_safe_copy :
    (∀ (fs : FS) (source destination : Path) (outcome : CopyOutcome),
      ((safe_copy fs source destination outcome).2 = true →
        (safe_copy fs source destination outcome).1 destination = fs source ∧
        (safe_copy fs source destination outcome).1 (destination ++ ".tmp".data) = none) ∧
      ((safe_copy fs source destination outcome).2 = false →
        (safe_copy fs source destination outcome).1 destination = fs destination ∧
        (safe_copy fs source destination outcome).1 (destination ++ ".tmp".data) = none)) ∧
    ∀ (outcomeOf : FileTarget → CopyOutcome) (changed_files : List FileTarget)
      (fs : FS),
      (copy_changed_files outcomeOf changed_files fs [] []).2.2 =
        changed_files.map (fun t =>
          (t.src, joinPath (joinPath OUTPUT_DIR t.device) t.dest_rel)) := by
  constructor
  · intro fs source destination outcome
    have h1 : destination ++ ".tmp".data ≠ destination := tmp_path_ne destination
    have h2 : destination ≠ destination ++ ".tmp".data := fun h => h1 h.symm
    cases outcome with
    | ok =>
      cases hsrc : fs source with
      | some content =>
        refine ⟨fun _ => ⟨?_, ?_⟩, fun h => by simp [safe_copy, hsrc] at h⟩
        · simp [safe_copy, hsrc, fsSet]
        · simp [safe_copy, hsrc, fsSet, h1]
      | none =>
        refine ⟨fun h => by simp [safe_copy, hsrc] at h, fun _ => ⟨?_, ?_⟩⟩
        · simp [safe_copy, hsrc, fsSet, h2]
        · simp [safe_copy, hsrc, fsSet]
    | copyRaises leftover =>
      refine ⟨fun h => by simp [safe_copy] at h, fun _ => ⟨?_, ?_⟩⟩
      · simp [safe_copy, fsSet, h2]
      · simp [safe_copy, fsSet]
    | replaceRaises =>
      cases hsrc : fs source with
      | some content =>
        refine ⟨fun h => by simp [safe_copy, hsrc] at h, fun _ => ⟨?_, ?_⟩⟩
        · simp [safe_copy, hsrc, fsSet, h2]
        · simp [safe_copy, hsrc, fsSet]
      | none =>
        refine ⟨fun h => by simp [safe_copy, hsrc] at h, fun _ => ⟨?_, ?_⟩⟩
        · simp [safe_copy, hsrc, fsSet, h2]
        · simp [safe_copy, hsrc, fsSet]
  · intro outcomeOf changed_files fs
    rw [copy_changed_files_calls]
    simp

/-- Witness for C7: a copy interrupted midway (stray bytes at the temp path)
reports failure, leaves the destination exactly as before and removes the
temp file. -/
theorem C7_crash_safe_copy_witness :
    (safe_copy
        (fun p => if p = "/s/a.rules".data then some "content".data else none)
        "/s/a.rules".data "collected_rules/dev/a.rules".data
        (CopyOutcome.copyRaises (some "junk".data))).2 = false ∧
    (safe_copy
        (fun p => if p = "/s/a.rules".data then some "content".data else none)
        "/s/a.rules".data "collected_rules/dev/a.rules".data
        (CopyOutcome.copyRaises (some "junk".data))).1
      "collected_rules/dev/a.rules".data =
      (fun p => if p = "/s/a.rules".data then some "content".data else none)
        "collected_rules/dev/a.rules".data ∧
    (safe_copy
        (fun p => if p = "/s/a.rules".data then some "content".data else none)
        "/s/a.rules".data "collected_rules/dev/a.rules".data
        (CopyOutcome.copyRaises (some "junk".data))).1
      ("collected_rules/dev/a.rules".data ++ ".tmp".data) = none := by
  have h := (C7_crash_safe_copy.1
    (fun p => if p = "/s/a.rules".data then some "content".data else none)
    "/s/a.rules".data "collected_rules/dev/a.rules".data
    (CopyOutcome.copyRaises (some "junk".data))).2 rfl
  exact ⟨rfl, h.1, h.2⟩

/-- C8: the hash record persisted at the end of a run is exactly the record
built from this run's digests (`save_hash_record` replaces the previous
persisted record wholesale, merging nothing), and any source path carried by
no target of this run is absent from it — whatever the previous record held. -/
theorem C8_hash_record_full_rewrite (persisted : HashRecord)
    (hashFn : Path → Option Path) (targets : List FileTarget)
    (old_hash_record : HashRecord) (p : Path)
    (habs : ∀ t ∈ targets, t.src ≠ p) :
    save_hash_record persisted
        (calculate_file_hashes hashFn targets old_hash_record).1 =
      (calculate_file_hashes hashFn targets old_hash_record).1 ∧
    (calculate_file_hashes hashFn targets old_hash_record).1 p = none := by
  refine ⟨rfl, ?_⟩
  unfold calculate_file_hashes
  rw [calc_hashes_loop_spec]
  dsimp only
  rw [calc_hashes_record_lookup]
  rw [if_neg fun hany => ?_]
  obtain ⟨t, ht, hc⟩ := List.any_eq_true.1 hany
  rw [Bool.and_eq_true] at hc
  exact habs t ht (of_decide_eq_true hc.1)

/-- Witness for C8: a path present in the previous persisted record but
carried by no target of this run is dropped from the freshly built record. -/
theorem C8_hash_record_full_rewrite_witness :
    (calculate_file_hashes (fun _ => some "h1".data)
        [{ src := "/a".data, device := "d".data, dest_rel := "r".data,
           cached := false, from_docker := false }]
        (fun _ => some "old".data)).1 "/stale/path".data = none :=
  (C8_hash_record_full_rewrite (fun _ => some "old".data)
    (fun _ => some "h1".data)
    [{ src := "/a".data, device := "d".data, dest_rel := "r".data,
       cached := false, from_docker := false }]
    (fun _ => some "old".data) "/stale/path".data (by decide)).2

/-- C9 is refuted by the code: with an empty `fileExtension` the exact-file
branch of `process_found_items` demands `endswith(".")` — the empty-extension
guard present in `enumerate_directory_files` (and in the docker enumeration)
is missing there — so an exact-file match under an empty extension is dropped
instead of kept, while a file reached by walking a matched directory is kept
without any filter, as the spec states for both cases. -/
theorem C9_empty_extension_exact_file_dropped :
    process_found_items
        { isFile := fun _ => true, isDir := fun _ => false, walk := fun _ => [] }
        ["/etc/suricata/rules/local.rules".data] "suricata".data [] = [] ∧
    enumerate_directory_files
        { isFile := fun _ => false, isDir := fun _ => true,
          walk := fun _ => [(".".data, "local.rules".data)] }
        "/etc/suricata/rules".data [] =
      [("/etc/suricata/rules/local.rules".data, "local.rules".data)] := by
  exact ⟨by decide, by decide⟩

end SecRules
